import Mathlib

/-!
Verification of the Framely TMDB aggregation/caching core.

This file shallowly embeds the aggregation-relevant parts of the repository:

* `retryAxiosRequest` (server/server.ts, shared with `retryRequest` in the
  backend utilities module) as a function over a per-attempt outcome stream,
  recording the result, the number of invocations and the backoff delays;
* the homepage list fan-out, unique-id collection, detail fan-out and
  hydration steps of `GET /api/movies/homepage`;
* the zustand store's `fetchMovieData` TTL cache and `setTrailer` bounded
  trailer cache (store/useAppStore.ts);
* the `GET /api/trailer/:type/:id` handler's input validation.

JavaScript records (`Map`, plain objects used as dictionaries) are embedded as
association lists with JS `Map.set` / object-spread update semantics; JS
truthiness of optional strings and numbers is modelled explicitly.
-/

namespace Framely

/-- Helper for `strContains`: does the second character list start with the
first? -/
def startsWithChars : List Char → List Char → Bool
  | [], _ => true
  | _ :: _, [] => false
  | p :: ps, c :: cs => p == c && startsWithChars ps cs

/-- Helper for `strContains`: does `pat` occur at some position of the
list? -/
def containsChars (pat : List Char) : List Char → Bool
  | [] => startsWithChars pat []
  | c :: cs => startsWithChars pat (c :: cs) || containsChars pat cs

/-- JS `String.prototype.includes pat`: true iff `pat` occurs in `s`. -/
def strContains (s pat : String) : Bool :=
  containsChars pat.toList s.toList

/-- JS truthiness of a `string | undefined` value: `undefined` and the empty
string are falsy. -/
def jsTruthy : Option String → Bool
  | none => false
  | some s => !s.isEmpty

/-- An axios-style exception: an optional error `code`, a `message`, and the
HTTP `response` status when the server answered (absent for network-level
failures and for non-axios exceptions). -/
structure AxiosErr where
  code : Option String
  message : String
  response : Option Nat
deriving DecidableEq

deriving instance DecidableEq for Except

/-- The network-error classification used inside `retryAxiosRequest`
(server/server.ts lines 358-363): code `ECONNABORTED`/`ETIMEDOUT`/`ENOTFOUND`,
a message containing `timeout`, or the absence of any HTTP response. -/
def isNetworkErrorRetry (e : AxiosErr) : Bool :=
  e.code == some "ECONNABORTED" ||
  e.code == some "ETIMEDOUT" ||
  e.code == some "ENOTFOUND" ||
  strContains e.message "timeout" ||
  e.response.isNone

/-- The trace of one `retryAxiosRequest` run: the final outcome, how many
times the wrapped function was invoked, and the backoff delays slept (in
order, in milliseconds). -/
structure RetryTrace (α : Type) where
  result : Except AxiosErr α
  calls : Nat
  delays : List Nat

/-- The retry loop of `retryAxiosRequest`, resolved from loop index
`attempt` with `remaining = maxRetries - attempt` iterations left after the
current one.  The wrapped function is modelled as a map from the attempt
index to that invocation's outcome. -/
def retryFrom (fn : Nat → Except AxiosErr α) (baseDelay : Nat) :
    Nat → Nat → RetryTrace α
  | attempt, 0 =>
    match fn attempt with
    | .ok v => ⟨.ok v, 1, []⟩
    | .error e => ⟨.error e, 1, []⟩
  | attempt, r + 1 =>
    match fn attempt with
    | .ok v => ⟨.ok v, 1, []⟩
    | .error e =>
      if isNetworkErrorRetry e then
        ⟨(retryFrom fn baseDelay (attempt + 1) r).result,
         (retryFrom fn baseDelay (attempt + 1) r).calls + 1,
         baseDelay * 2 ^ attempt :: (retryFrom fn baseDelay (attempt + 1) r).delays⟩
      else ⟨.error e, 1, []⟩

/-- `retryAxiosRequest(requestFn, maxRetries, baseDelay)` from
server/server.ts lines 344-378 (identical logic to `retryRequest` in the
shared backend utilities): attempts `0..maxRetries`; on a network-classified
error before the last attempt, sleeps `baseDelay * 2^attempt` and retries;
otherwise re-throws. -/
def retryAxiosRequest (fn : Nat → Except AxiosErr α) (maxRetries : Nat := 3)
    (baseDelay : Nat := 1000) : RetryTrace α :=
  retryFrom fn baseDelay 0 maxRetries

/-- Helper: a first-invocation error that the code does not classify as
network-class is re-thrown at once, after exactly one invocation and with
no backoff sleep, whatever the attempt budget. -/
lemma retryAxiosRequest_nonnetwork_first (fn : Nat → Except AxiosErr α)
    (maxRetries baseDelay : Nat) (e : AxiosErr)
    (h0 : fn 0 = .error e) (hn : isNetworkErrorRetry e = false) :
    retryAxiosRequest fn maxRetries baseDelay = ⟨.error e, 1, []⟩ := by
  cases maxRetries with
  | zero => simp [retryAxiosRequest, retryFrom, h0]
  | succ r => simp [retryAxiosRequest, retryFrom, h0, hn]

/-- Helper: every retry run invokes the wrapped function at least once. -/
lemma retryFrom_calls_pos (fn : Nat → Except AxiosErr α) (baseDelay attempt r : Nat) :
    1 ≤ (retryFrom fn baseDelay attempt r).calls := by
  cases r with
  | zero =>
    simp only [retryFrom]
    cases fn attempt <;> simp
  | succ r =>
    simp only [retryFrom]
    cases fn attempt with
    | ok v => simp
    | error e =>
      by_cases h : isNetworkErrorRetry e <;> simp [h]

/-- A transiently failing error value: code `ETIMEDOUT`, no HTTP response. -/
def timeoutErr : AxiosErr := ⟨some "ETIMEDOUT", "t", none⟩

/-- A non-axios exception: no error code, message `boom`, no HTTP response
attached.  This is "any other exception" in the claim's wording, yet the
code classifies it as network-class because it carries no response. -/
def boomErr : AxiosErr := ⟨none, "boom", none⟩

/-- An HTTP 404 error from a reachable server. -/
def notFoundErr : AxiosErr := ⟨none, "Request failed with status code 404", some 404⟩

/-- A function that always throws the non-axios exception `boomErr`. -/
def boomFn : Nat → Except AxiosErr Nat := fun _ => .error boomErr

/-- A function that throws a network error on its first two invocations and
succeeds on the third. -/
def transientFn : Nat → Except AxiosErr Nat := fun a =>
  if a < 2 then .error timeoutErr else .ok 42

/-- Claim C3, counterexample: a wrapped function that throws an exception
that is neither a NetworkError nor an HttpError (no code, message `boom`,
no HTTP response) is NOT re-raised immediately after one invocation:
`retryAxiosRequest` invokes it 4 times and sleeps the full backoff schedule
1000, 2000, 4000 ms, because the classifier treats every exception without a
`response` field as network-class. -/
theorem retryAxiosRequest_retries_responseless_exception :
    (retryAxiosRequest boomFn 3 1000).calls = 4 ∧
    (retryAxiosRequest boomFn 3 1000).delays = [1000, 2000, 4000] := by
  constructor <;> decide

/-- Claim C3 (amended): the retry wrapper re-raises an exception immediately
after exactly one invocation of `fn`, with no backoff sleep, precisely when
the exception fails the code's network classification — i.e. it carries an
HTTP response (an HttpError) and its code/message are not timeout-like.  An
exception without an HTTP response — including a non-axios exception — is
always classified network-class and is retried (given attempt budget),
sleeping before the second invocation. -/
theorem retryAxiosRequest_reraise_iff_not_network (fn : Nat → Except AxiosErr α)
    (maxRetries baseDelay : Nat) (e : AxiosErr) (h0 : fn 0 = .error e) :
    (isNetworkErrorRetry e = false →
      retryAxiosRequest fn maxRetries baseDelay = ⟨.error e, 1, []⟩) ∧
    (e.response = none → isNetworkErrorRetry e = true) ∧
    (isNetworkErrorRetry e = true → 1 ≤ maxRetries →
      2 ≤ (retryAxiosRequest fn maxRetries baseDelay).calls ∧
      (retryAxiosRequest fn maxRetries baseDelay).delays ≠ []) := by
  refine ⟨fun hn => retryAxiosRequest_nonnetwork_first fn maxRetries baseDelay e h0 hn,
    fun hresp => ?_, fun hnet hr => ?_⟩
  · simp [isNetworkErrorRetry, hresp]
  · cases maxRetries with
    | zero => omega
    | succ r =>
      have hc : (retryAxiosRequest fn (r + 1) baseDelay).calls
          = (retryFrom fn baseDelay 1 r).calls + 1 := by
        simp [retryAxiosRequest, retryFrom, h0, hnet]
      have hd : (retryAxiosRequest fn (r + 1) baseDelay).delays
          = baseDelay * 2 ^ 0 :: (retryFrom fn baseDelay 1 r).delays := by
        simp [retryAxiosRequest, retryFrom, h0, hnet]
      refine ⟨?_, by simp [hd]⟩
      have := retryFrom_calls_pos fn baseDelay 1 r
      omega

/-- Witness for the amended claim C3 at a concrete input: a wrapped function
that throws HTTP 404 on its first invocation is re-raised immediately, after
exactly one invocation and with no backoff sleep. -/
theorem retryAxiosRequest_reraise_witness :
    retryAxiosRequest (fun _ => (.error notFoundErr : Except AxiosErr Nat)) 3 1000 =
      ⟨.error notFoundErr, 1, []⟩ :=
  (retryAxiosRequest_reraise_iff_not_network
    (fun _ => (.error notFoundErr : Except AxiosErr Nat)) 3 1000 notFoundErr rfl).1 rfl

/-- Claim C5: a function that throws NetworkError on its first two
invocations and succeeds on the third, wrapped with an attempt budget of 3,
succeeds with exactly 3 invocations, sleeping `baseDelay * 2^attempt`
between consecutive invocations; and a function that throws an HttpError
(an error failing the network classification) on its first invocation
raises immediately after exactly 1 invocation. -/
theorem retry_transient_then_success (fn : Nat → Except AxiosErr α) (v : α)
    (e : AxiosErr) (baseDelay : Nat) (hnet : isNetworkErrorRetry e = true)
    (h0 : fn 0 = .error e) (h1 : fn 1 = .error e) (h2 : fn 2 = .ok v) :
    retryAxiosRequest fn 3 baseDelay =
      ⟨.ok v, 3, [baseDelay * 2 ^ 0, baseDelay * 2 ^ 1]⟩ ∧
    ∀ (fn2 : Nat → Except AxiosErr α) (e2 : AxiosErr), fn2 0 = .error e2 →
      isNetworkErrorRetry e2 = false →
      retryAxiosRequest fn2 3 baseDelay = ⟨.error e2, 1, []⟩ := by
  constructor
  · simp [retryAxiosRequest, retryFrom, h0, h1, h2, hnet]
  · exact fun fn2 e2 h02 hn2 =>
      retryAxiosRequest_nonnetwork_first fn2 3 baseDelay e2 h02 hn2

/-- Witness for claim C5 at a concrete input: two timeouts then success,
with `baseDelay = 500`: three invocations, sleeping 500 then 1000 ms. -/
theorem retry_transient_witness :
    retryAxiosRequest transientFn 3 500 = ⟨.ok 42, 3, [500 * 2 ^ 0, 500 * 2 ^ 1]⟩ :=
  (retry_transient_then_success transientFn 42 timeoutErr 500 rfl rfl rfl rfl).1

/-! ### Media items and JS dictionaries -/

/-- A TMDB media item, restricted to the fields the aggregation logic
inspects: the numeric `id`, the optional `media_type` discriminant and the
tv-only `first_air_date` field used for kind inference.  Summary items and
detail records are both values of this type. -/
structure Item where
  id : Nat
  media_type : Option String := none
  first_air_date : Option String := none
deriving DecidableEq

/-- `item.media_type || (item.first_air_date ? 'tv' : 'movie')`
(server/server.ts line 474): the explicit discriminant when truthy, else
`tv` iff the tv-only field is truthy. -/
def inferKind (it : Item) : String :=
  if jsTruthy it.media_type then it.media_type.getD ""
  else if jsTruthy it.first_air_date then "tv" else "movie"

/-- Lookup in a JS dictionary (object with computed keys / `Map`),
embedded as an association list: the value at the first matching key. -/
def objGet [DecidableEq κ] (m : List (κ × β)) (k : κ) : Option β :=
  (m.find? (fun p => p.1 = k)).map Prod.snd

/-- JS `Map.set` / object-spread update `\x7b...m, [k]: v\x7d`: if the key is
present its value is replaced in place, otherwise the pair is appended. -/
def objSet [DecidableEq κ] (m : List (κ × β)) (k : κ) (v : β) : List (κ × β) :=
  if m.any (fun p => p.1 = k) then
    m.map (fun p => if p.1 = k then (k, v) else p)
  else m ++ [(k, v)]

lemma objGet_map_update [DecidableEq κ] (m : List (κ × β)) (k : κ) (v : β)
    (h : m.any (fun p => p.1 = k)) :
    objGet (m.map (fun p => if p.1 = k then (k, v) else p)) k = some v := by
  induction m with
  | nil => simp at h
  | cons a m ih =>
    by_cases ha : a.1 = k
    · simp [objGet, List.find?, ha]
    · simp only [List.any_cons, decide_eq_true_eq, ha, false_or] at h
      simpa [objGet, List.find?, ha] using ih h

lemma objGet_append_new [DecidableEq κ] (m : List (κ × β)) (k : κ) (v : β) :
    objGet (m ++ [(k, v)]) k = (objGet m k).getD v := by
  induction m with
  | nil => simp [objGet, List.find?]
  | cons a m ih =>
    by_cases ha : a.1 = k
    · simp [objGet, List.find?, ha]
    · simpa [objGet, List.find?, ha] using ih

/-- Reading the key just written returns the written value. -/
lemma objGet_objSet_self [DecidableEq κ] (m : List (κ × β)) (k : κ) (v : β) :
    objGet (objSet m k v) k = some v := by
  unfold objSet
  by_cases h : m.any (fun p => p.1 = k)
  · rw [if_pos h]
    exact objGet_map_update m k v h
  · rw [if_neg h, objGet_append_new]
    have : objGet m k = none := by
      simp only [List.any_eq_true, decide_eq_true_eq] at h
      push_neg at h
      have hf : m.find? (fun p => p.1 = k) = none := by
        rw [List.find?_eq_none]
        intro x hx
        simp [h x hx]
      simp [objGet, hf]
    simp [this]

/-- Lookup on a non-empty association list, one step. -/
lemma objGet_cons [DecidableEq κ] (a : κ × β) (m : List (κ × β)) (k : κ) :
    objGet (a :: m) k = if a.1 = k then some a.2 else objGet m k := by
  by_cases h : a.1 = k <;> simp [objGet, List.find?, h]

/-- Writing one key leaves every other key's lookup unchanged (map
branch). -/
lemma objGet_map_update_ne [DecidableEq κ] (m : List (κ × β)) (k k2 : κ) (v : β)
    (hne : k ≠ k2) :
    objGet (m.map (fun p => if p.1 = k then (k, v) else p)) k2 = objGet m k2 := by
  induction m with
  | nil => simp [objGet]
  | cons a m ih =>
    rw [List.map_cons, objGet_cons, objGet_cons]
    by_cases ha : a.1 = k
    · rw [if_pos ha]
      have h2 : ¬ a.1 = k2 := by rw [ha]; exact hne
      simp only [if_neg hne, if_neg h2]
      exact ih
    · rw [if_neg ha]
      by_cases hb : a.1 = k2
      · simp only [if_pos hb]
      · simp only [if_neg hb]
        exact ih

/-- Writing one key leaves every other key's lookup unchanged (append
branch). -/
lemma objGet_append_ne [DecidableEq κ] (m : List (κ × β)) (k k2 : κ) (v : β)
    (hne : k ≠ k2) :
    objGet (m ++ [(k, v)]) k2 = objGet m k2 := by
  induction m with
  | nil =>
    rw [List.nil_append, objGet_cons]
    simp [objGet, if_neg hne]
  | cons a m ih =>
    rw [List.cons_append, objGet_cons, objGet_cons, ih]

/-- `objSet` at key `k` does not change the lookup of a different key. -/
lemma objGet_objSet_ne [DecidableEq κ] (m : List (κ × β)) (k k2 : κ) (v : β)
    (hne : k ≠ k2) :
    objGet (objSet m k v) k2 = objGet m k2 := by
  unfold objSet
  by_cases h : m.any (fun p => p.1 = k)
  · rw [if_pos h]; exact objGet_map_update_ne m k k2 v hne
  · rw [if_neg h]; exact objGet_append_ne m k k2 v hne

/-- The `uniqueItemsMap` construction of the homepage aggregation
(server/server.ts lines 469-477): walk every item of every bucket in order;
on first sight of an `id`, record `(id, inferred kind)`; any later
occurrence of the same `id` is skipped, regardless of its own kind. -/
def uniqueItemsGo : List Item → List (Nat × String) → List (Nat × String)
  | [], acc => acc
  | it :: rest, acc =>
    if acc.any (fun p => p.1 = it.id) then uniqueItemsGo rest acc
    else uniqueItemsGo rest (acc ++ [(it.id, inferKind it)])

/-- The entries of `uniqueItemsMap` in insertion order, starting from the
empty map. -/
def uniqueItemsFold (items : List Item) : List (Nat × String) :=
  uniqueItemsGo items []

lemma mem_fst_uniqueItemsGo (items : List Item) (acc : List (Nat × String)) (i : Nat) :
    i ∈ (uniqueItemsGo items acc).map Prod.fst ↔
      i ∈ acc.map Prod.fst ∨ i ∈ items.map Item.id := by
  induction items generalizing acc with
  | nil => simp [uniqueItemsGo]
  | cons it rest ih =>
    by_cases h : acc.any (fun p => p.1 = it.id)
    · have hmem : it.id ∈ acc.map Prod.fst := by
        simp only [List.any_eq_true, decide_eq_true_eq] at h
        obtain ⟨p, hp, hpk⟩ := h
        exact hpk ▸ List.mem_map_of_mem Prod.fst hp
      rw [uniqueItemsGo, if_pos h, ih]
      simp only [List.map_cons, List.mem_cons]
      constructor
      · rintro (ha | hr)
        · exact Or.inl ha
        · exact Or.inr (Or.inr hr)
      · rintro (ha | he | hr)
        · exact Or.inl ha
        · exact Or.inl (he ▸ hmem)
        · exact Or.inr hr
    · rw [uniqueItemsGo, if_neg h, ih]
      simp only [List.map_append, List.map_cons, List.mem_append,
        List.mem_cons, List.map_nil, List.mem_singleton]
      tauto

lemma nodup_fst_uniqueItemsGo (items : List Item) (acc : List (Nat × String))
    (h : (acc.map Prod.fst).Nodup) :
    ((uniqueItemsGo items acc).map Prod.fst).Nodup := by
  induction items generalizing acc with
  | nil => simpa [uniqueItemsGo] using h
  | cons it rest ih =>
    by_cases ha : acc.any (fun p => p.1 = it.id)
    · rw [uniqueItemsGo, if_pos ha]; exact ih acc h
    · rw [uniqueItemsGo, if_neg ha]
      refine ih _ ?_
      have hnot : it.id ∉ acc.map Prod.fst := by
        intro hmem
        obtain ⟨p, hp, hpk⟩ := List.mem_map.mp hmem
        exact ha (List.any_eq_true.mpr ⟨p, hp, by simp [hpk]⟩)
      simp [List.nodup_append, h, hnot]

/-- The outcome of one detail fetch for a recorded `(id, kind)` entry
(server/server.ts lines 481-496): the endpoint is `/tv/id` when the
recorded kind is `tv`, else `/movie/id` — the request is keyed by the
pair; the request goes through `retryAxiosRequest` with default budget and
any remaining failure is absorbed to `null`. -/
def detailResult (detailNet : Nat → String → Nat → Except AxiosErr Item)
    (i : Nat) (t : String) : Option Item :=
  match (retryAxiosRequest (detailNet i t) 3 1000).result with
  | .ok d => some d
  | .error _ => none

/-- The `detailsMap` construction (lines 499-503) from an arbitrary start
map: every non-null detail record is inserted under ITS OWN `id` field. -/
def detailsFold (ds : List (Option Item)) (m : List (Nat × Item)) :
    List (Nat × Item) :=
  ds.foldl (fun m od => match od with | some d => objSet m d.id d | none => m) m

/-- The `detailsMap` of the homepage aggregation, built from the empty
map. -/
def detailsMapOf (ds : List (Option Item)) : List (Nat × Item) :=
  detailsFold ds []

/-- The ids of the successfully fetched detail records, in order. -/
def someIds (ds : List (Option Item)) : List Nat :=
  ds.filterMap (fun od => od.map Item.id)

lemma someIds_cons_some (d : Item) (rest : List (Option Item)) :
    someIds (some d :: rest) = d.id :: someIds rest := by
  simp [someIds]

lemma someIds_cons_none (rest : List (Option Item)) :
    someIds (none :: rest) = someIds rest := by
  simp [someIds]

lemma detailsFold_preserve (ds : List (Option Item)) (m : List (Nat × Item))
    (k : Nat) (hk : k ∉ someIds ds) :
    objGet (detailsFold ds m) k = objGet m k := by
  induction ds generalizing m with
  | nil => simp [detailsFold]
  | cons od rest ih =>
    cases od with
    | none =>
      rw [someIds_cons_none] at hk
      exact ih m hk
    | some d =>
      rw [someIds_cons_some, List.mem_cons] at hk
      push_neg at hk
      rw [detailsFold, List.foldl_cons]
      have hrest := ih (objSet m d.id d) hk.2
      rw [detailsFold] at hrest
      exact hrest.trans (objGet_objSet_ne m d.id k d (Ne.symm hk.1))

/-- A successfully fetched detail record is found in `detailsMap` under its
id, provided the successful ids are pairwise distinct. -/
lemma objGet_detailsFold (ds : List (Option Item)) (d : Item)
    (hn : (someIds ds).Nodup) (hmem : some d ∈ ds) :
    ∀ m, objGet (detailsFold ds m) d.id = some d := by
  induction ds with
  | nil => simp at hmem
  | cons od rest ih =>
    intro m
    cases od with
    | none =>
      have hmem2 : some d ∈ rest := by
        rcases List.mem_cons.mp hmem with h | h
        · exact absurd h (by simp)
        · exact h
      rw [someIds_cons_none] at hn
      exact ih hn hmem2 m
    | some d2 =>
      rw [someIds_cons_some] at hn
      rcases List.mem_cons.mp hmem with h | h
      · have hd : d = d2 := by injection h
        cases hd
        rw [detailsFold, List.foldl_cons]
        have hout : d.id ∉ someIds rest := (List.nodup_cons.mp hn).1
        have hpres := detailsFold_preserve rest (objSet m d.id d) d.id hout
        rw [detailsFold] at hpres
        exact hpres.trans (objGet_objSet_self m d.id d)
      · have hn2 := (List.nodup_cons.mp hn).2
        rw [detailsFold, List.foldl_cons]
        have hr := ih hn2 h (objSet m d2.id d2)
        rw [detailsFold] at hr
        exact hr

/-- The successful detail ids form a sublist of the requested ids, when the
upstream returns records carrying the requested id. -/
lemma someIds_sublist (uniq : List (Nat × String))
    (detailNet : Nat → String → Nat → Except AxiosErr Item)
    (hid : ∀ i t d, detailResult detailNet i t = some d → d.id = i) :
    (someIds (uniq.map (fun p => detailResult detailNet p.1 p.2))).Sublist
      (uniq.map Prod.fst) := by
  induction uniq with
  | nil => simp [someIds]
  | cons p rest ih =>
    rw [List.map_cons, List.map_cons]
    cases hfetch : detailResult detailNet p.1 p.2 with
    | none =>
      rw [someIds_cons_none]
      exact List.Sublist.cons p.1 ih
    | some d =>
      have hd : d.id = p.1 := hid p.1 p.2 d hfetch
      rw [someIds_cons_some, hd]
      exact List.Sublist.cons₂ p.1 ih

/-- The hydration step (line 508): each bucket item is replaced by the
detail record stored under its id, when one exists, else kept. -/
def hydrateItem (dm : List (Nat × Item)) (it : Item) : Item :=
  (objGet dm it.id).getD it

/-- `allItems` (line 468): the union of all items across all buckets, in
bucket order. -/
def allItemsOf (listsMap : List (String × List Item)) : List Item :=
  (listsMap.map Prod.snd).flatten

/-- The homepage `detailsMap`: one detail fetch per `uniqueItemsMap` entry,
results keyed by the returned record's id. -/
def homepageDetailsMap (listsMap : List (String × List Item))
    (detailNet : Nat → String → Nat → Except AxiosErr Item) : List (Nat × Item) :=
  detailsMapOf ((uniqueItemsFold (allItemsOf listsMap)).map
    (fun p => detailResult detailNet p.1 p.2))

/-- The SPEC's notion for claim C1 (not the code's): the set of distinct
`(id, kind)` pairs over the union of items, the kind inferred per item.
Defined only to compare against the code's `uniqueItemsFold`, which keys by
id alone. -/
def distinctIdKindPairs (items : List Item) : List (Nat × String) :=
  (items.map (fun it => (it.id, inferKind it))).dedup

/-- Two items sharing id 7 but of different kinds (one an explicit movie,
one an explicit tv show). -/
def kindClashItems : List Item :=
  [⟨7, some "movie", none⟩, ⟨7, some "tv", some "2020-01-01"⟩]

/-- Claim C1, counterexample: the detail-enrichment step does NOT issue one
detail request per distinct `(id, kind)` pair.  For two items sharing id 7,
one explicitly a movie and one explicitly a tv show, there are two distinct
`(id, kind)` pairs but `uniqueItemsMap` — which keys by id alone — records
a single entry `(7, "movie")`, so exactly one detail request is issued (and
with the first occurrence's kind). -/
theorem uniqueItems_ignores_kind :
    (distinctIdKindPairs kindClashItems).length = 2 ∧
    uniqueItemsFold kindClashItems = [(7, "movie")] := by
  constructor <;> decide

/-- Claim C1 (amended): the detail-enrichment step deduplicates by id ALONE
— one detail request per distinct id over the union of all bucket items,
with the kind taken from the id's first occurrence in iteration order.  The
requested ids are exactly the distinct item ids (conjuncts 1 and 2), and
when the detail fetch for an entry succeeds with a record carrying the
requested id, every bucket position holding an item with that id — in
particular two positions in two different buckets — is hydrated to that
same single enriched record (conjunct 3). -/
theorem homepage_enrichment_dedup_by_id (listsMap : List (String × List Item))
    (detailNet : Nat → String → Nat → Except AxiosErr Item)
    (hid : ∀ i t d, detailResult detailNet i t = some d → d.id = i) :
    ((uniqueItemsFold (allItemsOf listsMap)).map Prod.fst).Nodup ∧
    (∀ i, i ∈ (uniqueItemsFold (allItemsOf listsMap)).map Prod.fst ↔
      i ∈ (allItemsOf listsMap).map Item.id) ∧
    (∀ p ∈ uniqueItemsFold (allItemsOf listsMap),
      ∀ d, detailResult detailNet p.1 p.2 = some d →
      ∀ kv ∈ listsMap, ∀ it ∈ kv.2, it.id = p.1 →
        hydrateItem (homepageDetailsMap listsMap detailNet) it = d) := by
  refine ⟨nodup_fst_uniqueItemsGo _ [] (by simp), fun i => ?_, ?_⟩
  · rw [uniqueItemsFold, mem_fst_uniqueItemsGo]
    simp
  · intro p hp d hd kv _ it _ hit
    have hnodup : ((uniqueItemsFold (allItemsOf listsMap)).map Prod.fst).Nodup :=
      nodup_fst_uniqueItemsGo _ [] (by simp)
    have hsub := someIds_sublist (uniqueItemsFold (allItemsOf listsMap)) detailNet hid
    have hn : (someIds ((uniqueItemsFold (allItemsOf listsMap)).map
        (fun q => detailResult detailNet q.1 q.2))).Nodup := hsub.nodup hnodup
    have hmem : some d ∈ (uniqueItemsFold (allItemsOf listsMap)).map
        (fun q => detailResult detailNet q.1 q.2) := by
      have := List.mem_map_of_mem (fun q => detailResult detailNet q.1 q.2) hp
      simpa [hd] using this
    have hget := objGet_detailsFold _ d hn hmem []
    have hdid : d.id = p.1 := hid p.1 p.2 d hd
    rw [hydrateItem, homepageDetailsMap, detailsMapOf, hit, ← hdid, hget]
    rfl

/-- Two buckets that both contain an item with id 7 (same kind). -/
def dupBuckets : List (String × List Item) :=
  [("a", [⟨7, some "movie", none⟩]), ("b", [⟨7, some "movie", none⟩])]

/-- A detail upstream that always succeeds, returning an enriched record
(distinguished by a set `first_air_date` field) carrying the requested
id. -/
def okDetailNet : Nat → String → Nat → Except AxiosErr Item :=
  fun i _ _ => .ok ⟨i, some "movie", some "enriched"⟩

/-- Witness for the amended claim C1 at a concrete input: with the same
item appearing in both buckets `a` and `b`, only the single id 7 is
requested, and the item of bucket `b` is hydrated to the enriched record
fetched once for id 7. -/
theorem homepage_enrichment_dedup_witness :
    ((uniqueItemsFold (allItemsOf dupBuckets)).map Prod.fst).Nodup ∧
    hydrateItem (homepageDetailsMap dupBuckets okDetailNet)
      ⟨7, some "movie", none⟩ = ⟨7, some "movie", some "enriched"⟩ := by
  have h := homepage_enrichment_dedup_by_id dupBuckets okDetailNet
    (by
      intro i t d hd
      rw [detailResult] at hd
      have : (retryAxiosRequest (okDetailNet i t) 3 1000).result
          = .ok ⟨i, some "movie", some "enriched"⟩ := rfl
      rw [this] at hd
      injection hd with hd2
      rw [← hd2])
  refine ⟨h.1, h.2.2 (7, "movie") (by decide) ⟨7, some "movie", some "enriched"⟩
    (by decide) ("b", [⟨7, some "movie", none⟩]) (by decide)
    ⟨7, some "movie", none⟩ (by decide) rfl⟩

/-! ### List-fetch fan-out and the homepage aggregation -/

/-- One list fetch of the fan-out (server/server.ts lines 447-461): the
request goes through `retryAxiosRequest` with the default budget; on
success the bucket gets `response.data.results || []`, on any remaining
failure the bucket gets `[]` and the key is kept. -/
def fetchBucket (net : String → Nat → Except AxiosErr (Option (List Item)))
    (kv : String × String) : String × List Item :=
  match (retryAxiosRequest (net kv.2) 3 1000).result with
  | .ok r => (kv.1, r.getD [])
  | .error _ => (kv.1, [])

/-- The list-fetch fan-out: one bucket per requested key, in table order. -/
def listFanOut (reqs : List (String × String))
    (net : String → Nat → Except AxiosErr (Option (List Item))) :
    List (String × List Item) :=
  reqs.map (fetchBucket net)

lemma fetchBucket_fst (net : String → Nat → Except AxiosErr (Option (List Item)))
    (kv : String × String) : (fetchBucket net kv).1 = kv.1 := by
  rw [fetchBucket]
  cases (retryAxiosRequest (net kv.2) 3 1000).result <;> rfl

/-- Claim C4: the fan-out output binds every requested bucket key, in
order; a bucket whose request still fails after retries is bound to the
empty sequence.  The fan-out is a total function — no single bucket failure
can fail the overall aggregation. -/
theorem listFanOut_total_keys (reqs : List (String × String))
    (net : String → Nat → Except AxiosErr (Option (List Item))) :
    ((listFanOut reqs net).map Prod.fst = reqs.map Prod.fst) ∧
    ∀ i (h : i < reqs.length),
      (∃ e, (retryAxiosRequest (net reqs[i].2) 3 1000).result = .error e) →
      (listFanOut reqs net)[i]? = some (reqs[i].1, []) := by
  constructor
  · induction reqs with
    | nil => rfl
    | cons kv rest ih =>
      rw [listFanOut, List.map_cons, List.map_cons, List.map_cons, fetchBucket_fst]
      rw [listFanOut] at ih
      rw [ih]
  · intro i h hfail
    obtain ⟨e, he⟩ := hfail
    rw [listFanOut, List.getElem?_map, List.getElem?_eq_getElem h]
    have hb : fetchBucket net reqs[i] = (reqs[i].1, []) := by
      rw [fetchBucket, he]
    simp [hb]

/-- A two-entry category table with one healthy and one failing
endpoint. -/
def fanReqs : List (String × String) := [("a", "/ok"), ("b", "/bad")]

/-- A network where `/ok` answers two items and everything else is
rejected with HTTP 404. -/
def fanNet : String → Nat → Except AxiosErr (Option (List Item)) := fun url _ =>
  if url = "/ok" then .ok (some [⟨1, none, none⟩, ⟨2, none, none⟩])
  else .error notFoundErr

/-- Witness for claim C4 at a concrete input: the failing bucket `b` is
still present, bound to the empty sequence. -/
theorem listFanOut_total_keys_witness :
    (listFanOut fanReqs fanNet)[1]? = some ("b", []) :=
  (listFanOut_total_keys fanReqs fanNet).2 1 (by decide) ⟨notFoundErr, by decide⟩

/-- If every attempt fails with the same error, the whole retry run fails
with that error. -/
lemma retryFrom_result_all_error (fn : Nat → Except AxiosErr α) (b : Nat)
    (e : AxiosErr) (h : ∀ a, fn a = .error e) :
    ∀ n att, (retryFrom fn b att n).result = .error e := by
  intro n
  induction n with
  | zero => intro att; simp [retryFrom, h att]
  | succ r ih =>
    intro att
    by_cases hne : isNetworkErrorRetry e <;> simp [retryFrom, h att, hne, ih]

/-- The homepage category table (server/server.ts lines 431-445). -/
def homepageRequests : List (String × String) :=
  [("trending", "/trending/all/week?language=en-US"),
   ("topRated", "/movie/top_rated?language=en-US"),
   ("action", "/discover/movie?with_genres=28"),
   ("comedy", "/discover/movie?with_genres=35"),
   ("horror", "/discover/movie?with_genres=27"),
   ("romance", "/discover/movie?with_genres=10749"),
   ("documentaries", "/discover/movie?with_genres=99"),
   ("upcomingMovies", "/movie/upcoming?language=en-US"),
   ("upcomingTV", "/tv/on_the_air?language=en-US"),
   ("hindiMovies", "/discover/movie?with_original_language=hi&sort_by=popularity.desc"),
   ("koreanMovies", "/discover/movie?with_original_language=ko&sort_by=popularity.desc"),
   ("koreanTV", "/discover/tv?with_original_language=ko&sort_by=popularity.desc")]

/-- Steps 2-4 of the homepage handler plus the combined rows (lines
468-520), from an already-fetched `listsMap`: hydrate every bucket from the
details map, then set `upcoming` (shuffled concatenation of the two
upcoming buckets) and `hindi` (shuffled `hindiMovies`).  The shuffle
(`.sort(() => Math.random() - 0.5)`) is abstracted as a function
parameter. -/
def homepageFinalData (listsMap : List (String × List Item))
    (detailNet : Nat → String → Nat → Except AxiosErr Item)
    (shuffle : List Item → List Item) : List (String × List Item) :=
  let dm := homepageDetailsMap listsMap detailNet
  let hydrated := listsMap.map (fun kv => (kv.1, kv.2.map (hydrateItem dm)))
  let upcoming := shuffle ((objGet hydrated "upcomingMovies").getD []
    ++ (objGet hydrated "upcomingTV").getD [])
  let hindi := shuffle ((objGet hydrated "hindiMovies").getD [])
  objSet (objSet hydrated "upcoming" upcoming) "hindi" hindi

/-- The whole try-body of `GET /api/movies/homepage`. -/
def homepagePipeline (listNet : String → Nat → Except AxiosErr (Option (List Item)))
    (detailNet : Nat → String → Nat → Except AxiosErr Item)
    (shuffle : List Item → List Item) : List (String × List Item) :=
  homepageFinalData (listFanOut homepageRequests listNet) detailNet shuffle

/-- The network-error classification of the homepage catch block (line
529): code `ECONNABORTED` or a message containing `timeout` — narrower
than the retry classifier (no response check, no other codes). -/
def isNetworkErrorHomepage (e : AxiosErr) : Bool :=
  e.code == some "ECONNABORTED" || strContains e.message "timeout"

/-- The two possible HTTP answers of the homepage endpoint. -/
inductive HomepageResponse where
  | ok (data : List (String × List Item))
  | serverError
deriving DecidableEq

/-- The `MOCK_MOVIES.results` entries (server/mockData), restricted to the
embedded fields: ids 1-8 with their explicit `media_type`
discriminants. -/
def mockItems : List Item :=
  [⟨1, some "tv", none⟩, ⟨2, some "tv", none⟩, ⟨3, some "tv", none⟩,
   ⟨4, some "movie", none⟩, ⟨5, some "movie", none⟩, ⟨6, some "movie", none⟩,
   ⟨7, some "tv", none⟩, ⟨8, some "movie", none⟩]

/-- The fixed mock payload built in the homepage catch block (lines
534-543): eight bucket keys, each bound to `MOCK_MOVIES.results`. -/
def mockHomepagePayload : List (String × List Item) :=
  [("trending", mockItems), ("topRated", mockItems), ("action", mockItems),
   ("comedy", mockItems), ("horror", mockItems), ("romance", mockItems),
   ("documentaries", mockItems), ("upcoming", mockItems)]

/-- The homepage catch block (lines 527-548): mock payload on a
network-classified error, HTTP 500 otherwise.  Reachable only by an
exception escaping the try-body. -/
def homepageCatch (e : AxiosErr) : HomepageResponse :=
  if isNetworkErrorHomepage e then .ok mockHomepagePayload else .serverError

/-- The homepage handler.  The try-body never throws: every list failure is
caught inside its own promise callback (lines 457-460) and every detail
failure inside its own (lines 492-495), so the catch block — and with it
the mock fallback — is unreachable from request failures, and the handler
always answers 200 with the pipeline's payload. -/
def homepageHandler (listNet : String → Nat → Except AxiosErr (Option (List Item)))
    (detailNet : Nat → String → Nat → Except AxiosErr Item)
    (shuffle : List Item → List Item) : HomepageResponse :=
  .ok (homepagePipeline listNet detailNet shuffle)

/-- A total-network-outage error: connection aborted, no response. -/
def econnErr : AxiosErr := ⟨some "ECONNABORTED", "timeout of 20000ms exceeded", none⟩

/-- A list network in total outage: every request to every endpoint fails
with a network-class error. -/
def outageNet : String → Nat → Except AxiosErr (Option (List Item)) :=
  fun _ _ => .error econnErr

/-- A detail network in total outage. -/
def outageDetailNet : Nat → String → Nat → Except AxiosErr Item :=
  fun _ _ _ => .error econnErr

/-- The payload actually produced under total outage: all twelve requested
bucket keys plus `upcoming` and `hindi`, each bound to the empty list. -/
def emptyHomepagePayload : List (String × List Item) :=
  [("trending", []), ("topRated", []), ("action", []), ("comedy", []),
   ("horror", []), ("romance", []), ("documentaries", []),
   ("upcomingMovies", []), ("upcomingTV", []), ("hindiMovies", []),
   ("koreanMovies", []), ("koreanTV", []), ("upcoming", []), ("hindi", [])]

/-- Claim C2, counterexample: under a total network outage on all
endpoints (every list request failing with `ECONNABORTED`), the
aggregation endpoint does NOT return the fixed mock payload — the
per-bucket catches absorb every failure, the catch block is never reached,
and the endpoint answers 200 with all-empty buckets. -/
theorem homepage_outage_returns_empty_not_mock :
    homepageHandler outageNet outageDetailNet id ≠ .ok mockHomepagePayload := by
  decide

/-- Under uniform list failure the fan-out binds every homepage bucket to
the empty list. -/
lemma listFanOut_all_error (reqs : List (String × String))
    (net : String → Nat → Except AxiosErr (Option (List Item))) (e : AxiosErr)
    (h : ∀ url a, net url a = .error e) :
    listFanOut reqs net = reqs.map (fun kv => (kv.1, [])) := by
  induction reqs with
  | nil => rfl
  | cons kv rest ih =>
    rw [listFanOut, List.map_cons, List.map_cons]
    rw [listFanOut] at ih
    rw [ih]
    have hres : (retryAxiosRequest (net kv.2) 3 1000).result = .error e :=
      retryFrom_result_all_error (net kv.2) 1000 e (h kv.2) 3 0
    rw [fetchBucket, hres]

/-- Claim C2 (amended): when every list request of the homepage aggregation
fails — in particular under a total network outage — the endpoint still
answers 200 with a payload containing every bucket key (the twelve
requested keys plus `upcoming` and `hindi`), each bound to the empty list;
it never returns null or undefined, but it does NOT return the mock
payload, because each bucket's failure is absorbed inside its own promise
and no exception reaches the catch block.  The mock payload is substituted
only by the catch block, and only for an exception classified
network-class there (code `ECONNABORTED` or message containing `timeout`),
never for an HTTP error response. -/
theorem homepage_total_outage_empty_buckets
    (listNet : String → Nat → Except AxiosErr (Option (List Item)))
    (detailNet : Nat → String → Nat → Except AxiosErr Item)
    (shuffle : List Item → List Item) (e : AxiosErr)
    (hfail : ∀ url a, listNet url a = .error e) (hsh : shuffle [] = []) :
    homepageHandler listNet detailNet shuffle = .ok emptyHomepagePayload ∧
    ∀ e2, homepageCatch e2 = .ok mockHomepagePayload ↔
      isNetworkErrorHomepage e2 = true := by
  constructor
  · have hl : listFanOut homepageRequests listNet
        = homepageRequests.map (fun kv => (kv.1, [])) :=
      listFanOut_all_error homepageRequests listNet e hfail
    rw [homepageHandler, homepagePipeline, hl]
    have hred : homepageFinalData (homepageRequests.map (fun kv => (kv.1, [])))
        detailNet shuffle
        = objSet (objSet (homepageRequests.map (fun kv => (kv.1, ([] : List Item))))
            "upcoming" (shuffle [])) "hindi" (shuffle []) := rfl
    rw [hred, hsh]
    rfl
  · intro e2
    by_cases h : isNetworkErrorHomepage e2 <;> simp [homepageCatch, h]

/-- Witness for the amended claim C2 at a concrete input: total outage with
`ECONNABORTED` on every endpoint and the identity shuffle — the endpoint
answers the all-empty payload. -/
theorem homepage_total_outage_witness :
    homepageHandler outageNet outageDetailNet id = .ok emptyHomepagePayload :=
  (homepage_total_outage_empty_buckets outageNet outageDetailNet id econnErr
    (fun _ _ => rfl) rfl).1

/-! ### The client cache store (store/useAppStore.ts) -/

/-- The nine bucket fields of the client `MovieData` payload. -/
structure MovieData where
  trending : List Item
  topRated : List Item
  action : List Item
  comedy : List Item
  horror : List Item
  romance : List Item
  documentaries : List Item
  upcoming : List Item
  hindi : List Item
deriving DecidableEq

/-- The initial cache payload: every bucket empty. -/
def emptyMovieData : MovieData := ⟨[], [], [], [], [], [], [], [], []⟩

/-- A raw homepage response body as received, before the defensive
`Array.isArray` checks: each bucket may be missing or malformed
(`none`). -/
structure RawPayload where
  trending : Option (List Item) := none
  topRated : Option (List Item) := none
  action : Option (List Item) := none
  comedy : Option (List Item) := none
  horror : Option (List Item) := none
  romance : Option (List Item) := none
  documentaries : Option (List Item) := none
  upcoming : Option (List Item) := none
  hindi : Option (List Item) := none
deriving DecidableEq

/-- The defensive `safeData` construction (useAppStore.ts lines 440-451):
each bucket that is not an array becomes `[]`. -/
def sanitizeResponse (r : RawPayload) : MovieData :=
  ⟨r.trending.getD [], r.topRated.getD [], r.action.getD [], r.comedy.getD [],
   r.horror.getD [], r.romance.getD [], r.documentaries.getD [],
   r.upcoming.getD [], r.hindi.getD []⟩

/-- The slice of the zustand store state read and written by
`fetchMovieData`. -/
structure StoreState where
  movieData : MovieData
  movieDataLoading : Bool
  movieDataError : Option String
  lastFetched : Option Int
deriving DecidableEq

/-- 30 minutes in milliseconds (useAppStore.ts line 300). -/
def CACHE_TTL : Int := 30 * 60 * 1000

/-- `lastFetched && now - lastFetched < CACHE_TTL` (line 412), with JS
truthiness of the `number | null` field: `null` and `0` are falsy. -/
def isCacheFresh (s : StoreState) (now : Int) : Bool :=
  match s.lastFetched with
  | none => false
  | some t => if t = 0 then false else decide (now - t < CACHE_TTL)

/-- The synchronous prefix of `fetchMovieData` (lines 407-433), everything
up to the first suspension point (`await axios.get`): the freshness guard
returns first, then the loading guard; otherwise the loading flag is set
and the error flag cleared — all before any `await`.  Returns the store
state after the prefix and whether a network fetch was initiated. -/
def fetchMovieDataStart (s : StoreState) (now : Int) (force : Bool) :
    StoreState × Bool :=
  if !force && isCacheFresh s now then (s, false)
  else if s.movieDataLoading then (s, false)
  else ({ s with movieDataLoading := true, movieDataError := none }, true)

/-- The continuation of `fetchMovieData` after the awaited response (lines
437-470): on success the sanitized payload replaces the whole `movieData`
atomically, the timestamp is reset and the flags cleared; on failure only
the error and loading flags change. -/
def fetchMovieDataComplete (s : StoreState) (completedAt : Int)
    (result : Except String RawPayload) : StoreState :=
  match result with
  | .ok raw =>
    { s with movieData := sanitizeResponse raw, movieDataLoading := false,
             lastFetched := some completedAt, movieDataError := none }
  | .error msg =>
    { s with movieDataError := some msg, movieDataLoading := false }

/-- One run-to-completion call of `fetchMovieData` in the single-threaded
event-loop model: the synchronous prefix, then — when a fetch was
initiated — the completion with the network outcome. -/
def fetchMovieDataRun (s : StoreState) (now : Int) (force : Bool)
    (completedAt : Int) (result : Except String RawPayload) : StoreState × Bool :=
  match fetchMovieDataStart s now force with
  | (s1, true) => (fetchMovieDataComplete s1 completedAt result, true)
  | (s1, false) => (s1, false)

/-- Claim C6: at most one refresh in flight — whenever the loading flag is
set, any further call (forced or not) returns without initiating a fetch
and without changing the state; and whenever a fetch IS initiated, the
loading flag was clear and is set synchronously, before the first
suspension point, so a second call observes it. -/
theorem fetchMovieData_at_most_one_in_flight (s : StoreState) (now : Int)
    (force : Bool) :
    (s.movieDataLoading = true → fetchMovieDataStart s now force = (s, false)) ∧
    ((fetchMovieDataStart s now force).2 = true →
      s.movieDataLoading = false ∧
      (fetchMovieDataStart s now force).1.movieDataLoading = true) := by
  constructor
  · intro h
    by_cases hfr : (!force && isCacheFresh s now) = true <;>
      simp [fetchMovieDataStart, hfr, h]
  · intro h
    rw [fetchMovieDataStart] at h ⊢
    by_cases hfr : (!force && isCacheFresh s now) = true
    · rw [if_pos hfr] at h
      exact absurd h (by simp)
    · rw [if_neg hfr] at h ⊢
      by_cases hl : s.movieDataLoading = true
      · rw [if_pos hl] at h
        exact absurd h (by simp)
      · rw [if_neg hl] at h ⊢
        exact ⟨by simpa using hl, rfl⟩

/-- A state whose refresh is already in progress. -/
def loadingState : StoreState := ⟨emptyMovieData, true, none, none⟩

/-- Witness for claim C6 at a concrete input: while loading, even a forced
call is a no-op that initiates nothing. -/
theorem fetchMovieData_at_most_one_in_flight_witness :
    fetchMovieDataStart loadingState 999 true = (loadingState, false) :=
  (fetchMovieData_at_most_one_in_flight loadingState 999 true).1 rfl

/-- Helper: a non-forced call on a fresh entry (nonzero timestamp within
the TTL window) returns before any state change and issues no fetch. -/
lemma fetchStart_fresh_noop (s : StoreState) (now t : Int)
    (hl : s.lastFetched = some t) (h0 : t ≠ 0) (hf : now - t < CACHE_TTL) :
    fetchMovieDataStart s now false = (s, false) := by
  have hfresh : isCacheFresh s now = true := by
    rw [isCacheFresh, hl]
    show (if t = 0 then false else decide (now - t < CACHE_TTL)) = true
    rw [if_neg h0]
    exact decide_eq_true hf
  simp [fetchMovieDataStart, hfresh]

/-- Claim C7: a non-forced call within the TTL window is a no-op — no
network fetch, state returned unchanged; consequently a cold call followed
by a second non-forced call within the TTL window of its completion issues
exactly one fetch in total (the first call fetches, the second does
not). -/
theorem fetchMovieData_fresh_ttl_noop (s : StoreState) (now t : Int)
    (hl : s.lastFetched = some t) (h0 : t ≠ 0) (hf : now - t < CACHE_TTL) :
    fetchMovieDataStart s now false = (s, false) ∧
    ∀ (s0 : StoreState) (now0 c0 now1 : Int) (raw : RawPayload),
      s0.movieDataLoading = false → s0.lastFetched = none → c0 ≠ 0 →
      now1 - c0 < CACHE_TTL →
      (fetchMovieDataRun s0 now0 false c0 (.ok raw)).2 = true ∧
      fetchMovieDataStart (fetchMovieDataRun s0 now0 false c0 (.ok raw)).1 now1 false
        = ((fetchMovieDataRun s0 now0 false c0 (.ok raw)).1, false) := by
  refine ⟨fetchStart_fresh_noop s now t hl h0 hf, ?_⟩
  intro s0 now0 c0 now1 raw hload hcold hc0 hwin
  have hfresh0 : isCacheFresh s0 now0 = false := by
    rw [isCacheFresh, hcold]
  have hstart : fetchMovieDataStart s0 now0 false
      = ({ s0 with movieDataLoading := true, movieDataError := none }, true) := by
    simp [fetchMovieDataStart, hfresh0, hload]
  have hrun : fetchMovieDataRun s0 now0 false c0 (.ok raw)
      = (fetchMovieDataComplete
          { s0 with movieDataLoading := true, movieDataError := none } c0 (.ok raw),
        true) := by
    rw [fetchMovieDataRun, hstart]
  refine ⟨by rw [hrun], ?_⟩
  rw [hrun]
  exact fetchStart_fresh_noop _ now1 c0 rfl hc0 hwin

/-- A cache entry fetched at timestamp 1000. -/
def freshState : StoreState := ⟨emptyMovieData, false, none, some 1000⟩

/-- Witness for claim C7 at a concrete input: 500 ms after the fetch, a
non-forced call is a no-op. -/
theorem fetchMovieData_fresh_ttl_noop_witness :
    fetchMovieDataStart freshState 1500 false = (freshState, false) :=
  (fetchMovieData_fresh_ttl_noop freshState 1500 1000 rfl (by decide) (by decide)).1

/-- Claim C8: with `lastFetched = now - TTL - 1`, a non-forced call
triggers a background refresh (a fetch is initiated) while the stored
payload and timestamp are unchanged by the synchronous prefix — only the
loading and error flags change before completion — and when the refresh
fails, the previous payload and timestamp are still retained. -/
theorem fetchMovieData_stale_background_refresh (s : StoreState) (now : Int)
    (hload : s.movieDataLoading = false)
    (hl : s.lastFetched = some (now - CACHE_TTL - 1)) :
    (fetchMovieDataStart s now false).2 = true ∧
    (fetchMovieDataStart s now false).1.movieData = s.movieData ∧
    (fetchMovieDataStart s now false).1.lastFetched = s.lastFetched ∧
    (fetchMovieDataStart s now false).1.movieDataLoading = true ∧
    (fetchMovieDataStart s now false).1.movieDataError = none ∧
    ∀ (c : Int) (msg : String),
      (fetchMovieDataComplete (fetchMovieDataStart s now false).1 c
        (.error msg)).movieData = s.movieData ∧
      (fetchMovieDataComplete (fetchMovieDataStart s now false).1 c
        (.error msg)).lastFetched = s.lastFetched := by
  have hstale : isCacheFresh s now = false := by
    rw [isCacheFresh, hl]
    show (if now - CACHE_TTL - 1 = 0 then false
      else decide (now - (now - CACHE_TTL - 1) < CACHE_TTL)) = false
    by_cases h0 : now - CACHE_TTL - 1 = 0
    · rw [if_pos h0]
    · rw [if_neg h0, decide_eq_false_iff_not]
      omega
  have hstart : fetchMovieDataStart s now false
      = ({ s with movieDataLoading := true, movieDataError := none }, true) := by
    simp [fetchMovieDataStart, hstale, hload]
  rw [hstart]
  exact ⟨rfl, rfl, rfl, rfl, rfl, fun c msg => ⟨rfl, rfl⟩⟩

/-- A cache entry exactly one millisecond past the TTL at time 2000000. -/
def staleState : StoreState := ⟨emptyMovieData, false, none, some 199999⟩

/-- Witness for claim C8 at a concrete input: the stale entry triggers a
refresh and the payload field is untouched by the prefix. -/
theorem fetchMovieData_stale_background_refresh_witness :
    (fetchMovieDataStart staleState 2000000 false).2 = true ∧
    (fetchMovieDataStart staleState 2000000 false).1.movieData
      = staleState.movieData :=
  ⟨(fetchMovieData_stale_background_refresh staleState 2000000 rfl (by decide)).1,
   (fetchMovieData_stale_background_refresh staleState 2000000 rfl (by decide)).2.1⟩

/-! ### Bounded trailer cache (useAppStore.ts lines 330-343) -/

/-- JS `Object.keys` on a record keyed by numbers: integer-like keys are
enumerated in ascending numeric order, not insertion order. -/
def objKeys (m : List (Nat × β)) : List Nat :=
  (m.map Prod.fst).insertionSort (· ≤ ·)

/-- `setTrailer(id, url)` (lines 330-343): when the cache holds more than
100 entries, the first 20 keys of `Object.keys` are deleted, then the new
entry is written over the remainder; otherwise the entry is written
directly. -/
def setTrailer (cache : List (Nat × Option String)) (id : Nat)
    (url : Option String) : List (Nat × Option String) :=
  if (objKeys cache).length > 100 then
    objSet (((objKeys cache).take 20).foldl
      (fun c k => c.filter (fun p => p.1 != k)) cache) id url
  else objSet cache id url

/-- Writing one entry grows an association list by at most one. -/
lemma objSet_length_le [DecidableEq κ] (m : List (κ × β)) (k : κ) (v : β) :
    (objSet m k v).length ≤ m.length + 1 := by
  unfold objSet
  by_cases h : m.any (fun p => p.1 = k)
  · rw [if_pos h, List.length_map]
    omega
  · rw [if_neg h, List.length_append]
    simp

/-- Deleting a list of pairwise-distinct, present keys removes at least one
entry per key. -/
lemma foldl_delete_length (ks : List Nat) :
    ∀ (m : List (Nat × Option String)), ks.Nodup →
    (∀ k ∈ ks, ∃ p ∈ m, p.1 = k) →
    (ks.foldl (fun c k => c.filter (fun p => p.1 != k)) m).length + ks.length
      ≤ m.length := by
  induction ks with
  | nil => intro m _ _; simp
  | cons k ks ih =>
    intro m hnd hpres
    rw [List.foldl_cons]
    have hm : (m.filter (fun p => p.1 != k)).length < m.length := by
      apply List.length_filter_lt_length_iff_exists.mpr
      obtain ⟨p, hp, hpk⟩ := hpres k (List.mem_cons_self k ks)
      exact ⟨p, hp, by simp [hpk]⟩
    have hpres2 : ∀ k2 ∈ ks, ∃ p ∈ m.filter (fun p => p.1 != k), p.1 = k2 := by
      intro k2 hk2
      obtain ⟨p, hp, hpk⟩ := hpres k2 (List.mem_cons_of_mem k hk2)
      have hne : p.1 ≠ k := by
        rw [hpk]
        exact fun hh => (List.nodup_cons.mp hnd).1 (hh ▸ hk2)
      exact ⟨p, List.mem_filter.mpr ⟨hp, by simp [hne]⟩, hpk⟩
    have hrec := ih (m.filter (fun p => p.1 != k)) (List.nodup_cons.mp hnd).2 hpres2
    simp only [List.length_cons]
    omega

/-- Claim C9: `setTrailer` keeps the trailer cache bounded — from any state
with at most 101 entries (and JS-object-invariant distinct keys), the cache
still has at most 101 entries after the call; and whenever more than 100
entries are present at call time, the eviction shrinks the cache by at
least 19 net entries. -/
theorem setTrailer_bounded (cache : List (Nat × Option String)) (id : Nat)
    (url : Option String) (hnd : (cache.map Prod.fst).Nodup)
    (hle : cache.length ≤ 101) :
    (setTrailer cache id url).length ≤ 101 ∧
    (100 < cache.length → (setTrailer cache id url).length + 19 ≤ cache.length) := by
  have hklen : (objKeys cache).length = cache.length := by
    rw [objKeys, List.length_insertionSort, List.length_map]
  have hknd : (objKeys cache).Nodup :=
    ((List.perm_insertionSort _ _).nodup_iff).mpr hnd
  by_cases hbig : (objKeys cache).length > 100
  · have hksnd : ((objKeys cache).take 20).Nodup :=
      (List.take_sublist 20 _).nodup hknd
    have hkslen : ((objKeys cache).take 20).length = 20 := by
      rw [List.length_take]
      omega
    have hpres : ∀ k ∈ (objKeys cache).take 20, ∃ p ∈ cache, p.1 = k := by
      intro k hk
      have hk1 : k ∈ objKeys cache := (List.take_sublist 20 _).subset hk
      have hk2 : k ∈ cache.map Prod.fst :=
        ((List.perm_insertionSort _ _).mem_iff).mp hk1
      obtain ⟨p, hp, hpk⟩ := List.mem_map.mp hk2
      exact ⟨p, hp, hpk⟩
    have hdel := foldl_delete_length ((objKeys cache).take 20) cache hksnd hpres
    have hset := objSet_length_le (((objKeys cache).take 20).foldl
      (fun c k => c.filter (fun p => p.1 != k)) cache) id url
    rw [setTrailer, if_pos hbig]
    exact ⟨by omega, fun _ => by omega⟩
  · have hset := objSet_length_le cache id url
    rw [setTrailer, if_neg hbig]
    exact ⟨by omega, fun hgt => by omega⟩

/-- A one-entry trailer cache. -/
def smallTrailerCache : List (Nat × Option String) := [(1, some "u")]

/-- Witness for claim C9 at a concrete input: inserting into a one-entry
cache stays within the bound. -/
theorem setTrailer_bounded_witness :
    (setTrailer smallTrailerCache 2 none).length ≤ 101 :=
  (setTrailer_bounded smallTrailerCache 2 none (by decide) (by decide)).1

/-! ### Trailer endpoint validation (server.ts lines 733-767) -/

/-- `error.response?.status || 500`: the response status when present and
truthy, else 500. -/
def jsStatusOr500 (e : AxiosErr) : Nat :=
  match e.response with
  | some s => if s = 0 then 500 else s
  | none => 500

/-- The network-error classification of the trailer catch block (line
755): code `ECONNABORTED`, a message containing `timeout`, or no
response. -/
def isNetworkErrorTrailer (e : AxiosErr) : Bool :=
  e.code == some "ECONNABORTED" || strContains e.message "timeout" ||
  e.response.isNone

/-- The possible HTTP answers of the trailer endpoint. -/
inductive TrailerResponse where
  | ok (videos : List String)
  | badRequest
  | httpError (status : Nat)
deriving DecidableEq

/-- `GET /api/trailer/:type/:id` (lines 733-767): rejects any `type` other
than `movie` or `tv` with HTTP 400 before any upstream call; otherwise
fetches `/{type}/{id}/videos` through the retry wrapper, absorbing
network-class failures to an empty result list and surfacing HTTP failures
with their status.  The second component records whether any upstream
request was issued. -/
def trailerHandler (ptype pid : String)
    (net : String → Nat → Except AxiosErr (List String)) :
    TrailerResponse × Bool :=
  if ¬ (ptype = "movie" ∨ ptype = "tv") then (.badRequest, false)
  else
    match (retryAxiosRequest
        (net ("/" ++ ptype ++ "/" ++ pid ++ "/videos")) 3 1000).result with
    | .ok data => (.ok data, true)
    | .error e =>
      if isNetworkErrorTrailer e then (.ok [], true)
      else (.httpError (jsStatusOr500 e), true)

/-- Claim C10: a request whose `type` parameter is neither `movie` nor
`tv` is answered with HTTP 400 and no upstream request is issued; an
upstream fetch is attempted exactly when `type` is one of the two allowed
values. -/
theorem trailer_type_validation (ptype pid : String)
    (net : String → Nat → Except AxiosErr (List String)) :
    (ptype ≠ "movie" → ptype ≠ "tv" →
      trailerHandler ptype pid net = (.badRequest, false)) ∧
    ((trailerHandler ptype pid net).2 = true ↔ (ptype = "movie" ∨ ptype = "tv")) := by
  by_cases hv : ptype = "movie" ∨ ptype = "tv"
  · constructor
    · intro h1 h2
      rcases hv with h | h
      · exact absurd h h1
      · exact absurd h h2
    · rw [trailerHandler, if_neg (not_not_intro hv)]
      cases hres : (retryAxiosRequest
          (net ("/" ++ ptype ++ "/" ++ pid ++ "/videos")) 3 1000).result with
      | ok data => simpa using hv
      | error e =>
        by_cases hne : isNetworkErrorTrailer e = true <;> simp [hne, hv]
  · constructor
    · intro _ _
      rw [trailerHandler, if_pos hv]
    · rw [trailerHandler, if_pos hv]
      simpa using hv

/-- An upstream that always answers one video key. -/
def trailerNetW : String → Nat → Except AxiosErr (List String) :=
  fun _ _ => .ok ["dQw4w9WgXcQ"]

/-- Witness for claim C10 at a concrete input: `type = "anime"` is
rejected with 400 and the upstream is never called. -/
theorem trailer_type_validation_witness :
    trailerHandler "anime" "99" trailerNetW = (.badRequest, false) :=
  (trailer_type_validation "anime" "99" trailerNetW).1 (by decide) (by decide)

end Framely

